import Mathlib

/-!
A shallow embedding of the `tracing_fn` procedural macro (src/lib.rs) of the
`tracing-fn` repository, together with theorems checking the repository's
specification against it.

The macro has two phases, both modelled here:
* parsing of the raw attribute-argument text into `level` / `skip_args` /
  `force` (lib.rs lines 36-65);
* generation of the replacement function body (lib.rs lines 67-182): an
  entry event, a timed execution of the original body, an exit event, with
  inclusion of the instrumentation decided by `force` and by the
  `debug_assertions` build flag through `cfg` attributes.

Machine strings are `String` (a list of characters); the helper functions
from the Rust standard library used by the source (`trim`, `trim_matches`,
`find`, `split`) are embedded explicitly below.
-/

/-- Rust `char::is_whitespace`, at the ASCII whitespace characters that can
occur in attribute text. -/
def rustIsWs (c : Char) : Bool := c.isWhitespace

/-- Rust `str::trim` (lib.rs lines 46, 48, 49, 56): leading and trailing
whitespace characters removed. -/
def trimChars (cs : List Char) : List Char :=
  ((cs.dropWhile rustIsWs).reverse.dropWhile rustIsWs).reverse

/-- `str::trim` lifted to `String`. -/
def rustTrim (s : String) : String := ⟨trimChars s.data⟩

/-- The single-quote character, written by code point to keep the source
plain. -/
def singleQuote : Char := Char.ofNat 39

/-- The closure at lib.rs line 51: `|c| c == '"' || c == ⟨39⟩`. -/
def isQuoteChar (c : Char) : Bool := c == '"' || c == singleQuote

/-- Rust `str::trim_matches` with `isQuoteChar` (lib.rs line 51): every
leading and every trailing quote character is removed, repeatedly, whether
or not the two ends match. -/
def trimMatchesQuote (s : String) : String :=
  ⟨((s.data.dropWhile isQuoteChar).reverse.dropWhile isQuoteChar).reverse⟩

/-- Rust `str::find` of the character `=` followed by the slicings
`arg[..eq_pos]` and `arg[eq_pos + 1..]` (lib.rs lines 47-49): splits at the
first `=`, returning `none` when there is none. -/
def splitFirstEq : List Char → Option (List Char × List Char)
  | [] => none
  | c :: cs =>
    if c = '=' then some ([], cs)
    else
      match splitFirstEq cs with
      | some (k, v) => some (c :: k, v)
      | none => none

/-- Rust `str::split` at a comma (lib.rs lines 45 and 56); splitting the
empty string yields one empty piece, as in Rust. -/
def splitCommaChars : List Char → List (List Char)
  | [] => [[]]
  | c :: cs =>
    if c = ',' then [] :: splitCommaChars cs
    else
      match splitCommaChars cs with
      | h :: t => (c :: h) :: t
      | [] => [[c]]

/-- `str::split(',')` lifted to `String`. -/
def splitComma (s : String) : List String :=
  (splitCommaChars s.data).map fun cs => ⟨cs⟩

/-- The three mutable locals of lib.rs lines 37-39: the parsed attribute
options. -/
structure MacroOpts where
  level : String
  skip_args : List String
  force : Bool
deriving DecidableEq, Repr

/-- lib.rs lines 37-39: `level = "trace"`, `skip_args = vec![]`,
`force = false`. -/
def defaultOpts : MacroOpts := ⟨"trace", [], false⟩

/-- lib.rs lines 46-51: the fragment is trimmed; if it holds an `=`, it is
split there into a trimmed key and a value that is trimmed and then
quote-stripped; otherwise `none`. -/
def fragKeyValue (frag : String) : Option (String × String) :=
  match splitFirstEq (rustTrim frag).data with
  | none => none
  | some (k, v) => some (⟨trimChars k⟩, trimMatchesQuote ⟨trimChars v⟩)

/-- lib.rs lines 46-62: one iteration of the `for arg in args_string.split`
loop, updating the options with one fragment. -/
def applyFragment (opts : MacroOpts) (frag : String) : MacroOpts :=
  match fragKeyValue frag with
  | none => opts
  | some (key, value) =>
    if key = "level" then { opts with level := value }
    else if key = "skip" then
      { opts with skip_args := (splitComma value).map rustTrim }
    else if key = "force" then { opts with force := value == "true" }
    else opts

/-- lib.rs lines 36-65: the whole attribute-argument parse, guarded by
`!args.is_empty()`. -/
def parseMacroArgs (args : String) : MacroOpts :=
  if args = "" then defaultOpts
  else (splitComma args).foldl applyFragment defaultOpts

/-- One parameter of the annotated function's signature, as lib.rs lines
77-93 sees it: either a `FnArg::Typed` whose pattern is a plain
`Pat::Ident` (carrying the parameter name and the `{:?}` rendering of its
runtime value), or anything else (a receiver or a pattern binding), which
the loop skips. -/
inductive FnParam where
  | typedIdent (name : String) (valueDebug : String)
  | other
deriving DecidableEq, Repr

/-- lib.rs lines 75-94: the `arg_values` vector. For each simple-identifier
parameter, `format!("{}={:?}", name, value)` unless the name is in
`skip_args`, in which case `format!("{}={}", name, "***")`. -/
def argValues (skip_args : List String) : List FnParam → List String
  | [] => []
  | FnParam.typedIdent name dbg :: rest =>
    (if !(skip_args.contains name) then name ++ "=" ++ dbg
     else name ++ "=***") :: argValues skip_args rest
  | FnParam.other :: rest => argValues skip_args rest

/-- lib.rs lines 107-111 (and 145-149): `"()"` for an empty vector,
otherwise the fragments joined with `", "`. -/
def joinArgsStr (vals : List String) : String :=
  if vals.isEmpty then "()" else String.intercalate ", " vals

/-- Validity of an (ASCII) identifier, as checked by
`syn::Ident::new` at lib.rs line 96, which panics when the string is not a
valid identifier. Modelled from the external `proc-macro2` crate: nonempty,
first character a letter or underscore, the rest letters, digits or
underscores. -/
def rustIdentOk (s : String) : Bool :=
  match s.data with
  | [] => false
  | c :: cs => (c.isAlpha || c == '_') && cs.all fun d => d.isAlphanum || d == '_'

/-- How the build of an annotated function can fail because of the `level`
option. -/
inductive GenFailure where
  /-- `syn::Ident::new` at lib.rs line 96 panics: the uppercased level is
  not a valid identifier. -/
  | identPanic
  /-- The emitted path `tracing::Level::<ident>` names no constant of the
  external `tracing` crate, so compiling the macro's output fails. -/
  | unresolvedLevel
deriving DecidableEq, Repr

/-- The severity constants of the external `tracing` crate's `Level` type,
modelled from that crate: `TRACE`, `DEBUG`, `INFO`, `WARN`, `ERROR`. -/
def tracingLevelConsts : List String := ["TRACE", "DEBUG", "INFO", "WARN", "ERROR"]

/-- Rust `str::to_uppercase` (lib.rs line 96), at ASCII characters. -/
def rustToUpper (s : String) : String := ⟨s.data.map Char.toUpper⟩

/-- lib.rs line 96 (`syn::Ident::new(&level.to_uppercase(), ...)`) together
with the downstream name resolution of the emitted path
`tracing::Level::<ident>`: the level is uppercased; an invalid identifier
makes the macro panic, a valid identifier that is not a `tracing::Level`
constant makes the emitted code fail to compile. -/
def resolveLevel (level : String) : Except GenFailure String :=
  let up := rustToUpper level
  if rustIdentOk up then
    if tracingLevelConsts.contains up then Except.ok up
    else Except.error GenFailure.unresolvedLevel
  else Except.error GenFailure.identPanic

/-- Whether an emitted event is the entry event (the `>>>` one) or the exit
event (the `<<<` one). -/
inductive EventKind where
  | entry
  | exit
deriving DecidableEq, Repr

/-- One `tracing::event!` emission: its kind, its severity identifier and
its formatted message. -/
structure TraceEvent where
  kind : EventKind
  level : String
  msg : String
deriving DecidableEq, Repr

/-- The entry-event message of lib.rs lines 114-118 and 152-156:
`">>> [{}] #Args: {} --- {}:{}"`. -/
def entryMsg (fnName argsStr srcFile : String) (line : Nat) : String :=
  ">>> [" ++ fnName ++ "] #Args: " ++ argsStr ++ " --- " ++ srcFile ++ ":" ++ toString line

/-- The exit-event message: lib.rs line 128 formats
`"<<< [{}] #Ret: {:?}, duration: {:?}"` with one space after `#Ret:`, while
lib.rs line 168 formats `"<<< [{}] #Ret:  {:?}, duration: {:?}"` with two;
`extraSpace` selects between the two source lines. -/
def exitMsg (fnName retDbg durDbg : String) (extraSpace : Bool) : String :=
  "<<< [" ++ fnName ++ "] #Ret: " ++ (if extraSpace then " " else "") ++
    retDbg ++ ", duration: " ++ durDbg

/-- One of the three block shapes the macro can emit into the generated
body. -/
inductive GenBlock where
  /-- The block computing `__tracing_fn_args_str` and emitting the `>>>`
  event (lib.rs lines 105-120 and 142-158). -/
  | entryEvent
  /-- The block taking `Instant::now()`, running `(move || body)()`, taking
  `elapsed()`, emitting the `<<<` event and yielding the result (lib.rs
  lines 122-134 and 160-175); `extraSpace` records which exit format string
  the block carries. -/
  | timedBodyExit (extraSpace : Bool)
  /-- The bare `(move || body)()` call (lib.rs line 179). -/
  | plainBody
deriving DecidableEq, Repr

/-- A generated block together with its `cfg` gate: `none` for an ungated
block, `some b` for `#[cfg(debug_assertions)]` (`b = true`) or
`#[cfg(not(debug_assertions))]` (`b = false`). -/
structure CfgBlock where
  cfg : Option Bool
  blk : GenBlock
deriving DecidableEq, Repr

/-- lib.rs lines 100-182: the body the macro generates. With
`force = true` (lines 102-136) the entry and timed-exit blocks are emitted
ungated, with the one-space exit format. With `force = false` (lines
139-181) the entry and timed-exit blocks are gated on `debug_assertions`
(the timed-exit one carrying the two-space exit format of line 168) and a
bare call of the original body is gated on `not(debug_assertions)`. -/
def generateBody (force : Bool) : List CfgBlock :=
  if force then
    [⟨none, GenBlock.entryEvent⟩, ⟨none, GenBlock.timedBodyExit false⟩]
  else
    [⟨some true, GenBlock.entryEvent⟩,
     ⟨some true, GenBlock.timedBodyExit true⟩,
     ⟨some false, GenBlock.plainBody⟩]

/-- Whether a `cfg` gate keeps its block under the given value of the
`debug_assertions` build flag. -/
def cfgKeeps (debugAssertions : Bool) : Option Bool → Bool
  | none => true
  | some b => b == debugAssertions

/-- Conditional compilation: the blocks that survive `cfg` evaluation, in
order. This is decided when the output is compiled, not at runtime. -/
def compiledBody (debugAssertions : Bool) (bs : List CfgBlock) : List GenBlock :=
  (bs.filter fun b => cfgKeeps debugAssertions b.cfg).map CfgBlock.blk

/-- The runtime data of one call of an annotated function: its name, its
parameters with the `{:?}` renderings of the passed values, the outcome of
running the original body once (`Except.ok` a value, `Except.error` a panic
payload), how far the monotonic clock advances while the body runs, the
`{:?}` renderings of the return type and of `std::time::Duration`, and the
`file!()`/`line!()` source location. -/
structure TracedFn (α : Type) where
  fnName : String
  params : List FnParam
  body : Except String α
  bodyTicks : Nat
  debugRet : α → String
  durRepr : Nat → String
  srcFile : String
  srcLine : Nat

/-- The possible outcomes of running a generated body. -/
inductive FnOutcome (α : Type) where
  /-- A normal return carrying the function's value. -/
  | ret (v : α)
  /-- An unwinding panic propagating out of the body, carrying its
  payload. -/
  | panicked (msg : String)
  /-- No surviving block produced the function's value (never the case for
  a body the macro generates, in either profile). -/
  | noValue
deriving DecidableEq, Repr

/-- Running the surviving blocks in order at clock value `now`, collecting
the emitted events and the function's outcome. The function's value is the
one of the last value-producing block (the tail expression of the generated
body); a panic of the original body stops execution at once, so no later
event is emitted. The clock advances exactly while the body runs, so the
`elapsed()` of lib.rs lines 124 and 164 is the difference of the clock
around the body call. -/
def execBlocks {α : Type} (skip_args : List String) (levelIdent : String)
    (f : TracedFn α) (now : Nat) : List GenBlock → List TraceEvent × FnOutcome α
  | [] => ([], FnOutcome.noValue)
  | GenBlock.entryEvent :: rest =>
    let e : TraceEvent :=
      ⟨EventKind.entry, levelIdent,
       entryMsg f.fnName (joinArgsStr (argValues skip_args f.params)) f.srcFile f.srcLine⟩
    let r := execBlocks skip_args levelIdent f now rest
    (e :: r.1, r.2)
  | GenBlock.timedBodyExit extraSpace :: rest =>
    match f.body with
    | Except.error p => ([], FnOutcome.panicked p)
    | Except.ok v =>
      let dur := (now + f.bodyTicks) - now
      let e : TraceEvent :=
        ⟨EventKind.exit, levelIdent,
         exitMsg f.fnName (f.debugRet v) (f.durRepr dur) extraSpace⟩
      let r := execBlocks skip_args levelIdent f (now + f.bodyTicks) rest
      (e :: r.1, match r.2 with | FnOutcome.noValue => FnOutcome.ret v | o => o)
  | GenBlock.plainBody :: rest =>
    match f.body with
    | Except.error p => ([], FnOutcome.panicked p)
    | Except.ok v =>
      let r := execBlocks skip_args levelIdent f (now + f.bodyTicks) rest
      (r.1, match r.2 with | FnOutcome.noValue => FnOutcome.ret v | o => o)

/-- One call of the function the macro generated: the body produced for the
given `force` flag, compiled under the given `debug_assertions` flag, run
on the given call data. -/
def runGenerated {α : Type} (force debugAssertions : Bool) (skip_args : List String)
    (levelIdent : String) (f : TracedFn α) (now : Nat) : List TraceEvent × FnOutcome α :=
  execBlocks skip_args levelIdent f now (compiledBody debugAssertions (generateBody force))

/-- The outcome of the original, uninstrumented body. -/
def bodyOutcome {α : Type} : Except String α → FnOutcome α
  | Except.ok v => FnOutcome.ret v
  | Except.error p => FnOutcome.panicked p

/-- The build-time part of the macro end to end (lib.rs lines 36-185):
parse the attribute arguments, resolve the level identifier, generate the
gated body; fails when the level makes line 96 panic or makes the emitted
path unresolvable. -/
def tracingFnExpand (args : String) : Except GenFailure (MacroOpts × String × List CfgBlock) :=
  let opts := parseMacroArgs args
  match resolveLevel opts.level with
  | Except.error e => Except.error e
  | Except.ok up => Except.ok (opts, up, generateBody opts.force)

/-- A concrete call for witnesses: `add(2, 3) = 5` of examples/example.rs,
taking 7 clock ticks. -/
def addExample : TracedFn Nat where
  fnName := "add"
  params := [FnParam.typedIdent "a" "2", FnParam.typedIdent "b" "3"]
  body := Except.ok 5
  bodyTicks := 7
  debugRet := fun n => toString n
  durRepr := fun t => toString t ++ "ns"
  srcFile := "examples/example.rs"
  srcLine := 20

/-- C1: with `force = false` under the optimized profile
(`debug_assertions` off), the compiled body is exactly the bare call of the
original body; running it emits no event, performs no timing, and yields
exactly the original body's outcome. -/
theorem claim_C1 (α : Type) (f : TracedFn α) (skip_args : List String)
    (lvl : String) (now : Nat) :
    compiledBody false (generateBody false) = [GenBlock.plainBody] ∧
    (runGenerated false false skip_args lvl f now).1 = [] ∧
    (runGenerated false false skip_args lvl f now).2 = bodyOutcome f.body := by
  refine ⟨rfl, ?_, ?_⟩ <;>
    cases hb : f.body <;>
      simp [runGenerated, compiledBody, generateBody, cfgKeeps, execBlocks, bodyOutcome, hb]

/-- C2: with `force = true`, in every build profile, a normally returning
call emits first the entry event, then the exit event carrying the debug
representation of the result and the duration measured across exactly the
body's execution, and returns the captured result. -/
theorem claim_C2 (α : Type) (f : TracedFn α) (debugAssertions : Bool)
    (skip_args : List String) (lvl : String) (now : Nat) (v : α)
    (hv : f.body = Except.ok v) :
    runGenerated true debugAssertions skip_args lvl f now =
      ([⟨EventKind.entry, lvl,
          entryMsg f.fnName (joinArgsStr (argValues skip_args f.params)) f.srcFile f.srcLine⟩,
        ⟨EventKind.exit, lvl,
          exitMsg f.fnName (f.debugRet v) (f.durRepr f.bodyTicks) false⟩],
       FnOutcome.ret v) := by
  simp [runGenerated, compiledBody, generateBody, cfgKeeps, execBlocks, hv]

/-- Witness for C2 at the concrete call `add(2, 3)`. -/
theorem claim_C2_witness :
    runGenerated true false [] "TRACE" addExample 0 =
      ([⟨EventKind.entry, "TRACE", ">>> [add] #Args: a=2, b=3 --- examples/example.rs:20"⟩,
        ⟨EventKind.exit, "TRACE", "<<< [add] #Ret: 5, duration: 7ns"⟩],
       FnOutcome.ret 5) :=
  claim_C2 Nat addExample false [] "TRACE" 0 5 rfl

/-- C3 fails on the code: in conditional mode under the instrumented
profile the exit message of lib.rs line 168 carries two spaces after
`#Ret:`, while forced mode (lib.rs line 128) carries the single space the
claim states for both modes. -/
theorem claim_C3_bug :
    (runGenerated false true [] "TRACE" addExample 0).1 =
      [⟨EventKind.entry, "TRACE", ">>> [add] #Args: a=2, b=3 --- examples/example.rs:20"⟩,
       ⟨EventKind.exit, "TRACE", "<<< [add] #Ret:  5, duration: 7ns"⟩] ∧
    (runGenerated true true [] "TRACE" addExample 0).1 =
      [⟨EventKind.entry, "TRACE", ">>> [add] #Args: a=2, b=3 --- examples/example.rs:20"⟩,
       ⟨EventKind.exit, "TRACE", "<<< [add] #Ret: 5, duration: 7ns"⟩] :=
  ⟨rfl, rfl⟩

/-- C10: the lenient parser accepts `level = ""` and `level = "my-level"`
without error, yet expanding the macro on them fails with the
`syn::Ident::new` panic of lib.rs line 96, since the uppercased level is
not a valid identifier. -/
theorem claim_C10 :
    (parseMacroArgs "level = \"\"").level = "" ∧
    tracingFnExpand "level = \"\"" = Except.error GenFailure.identPanic ∧
    (parseMacroArgs "level = \"my-level\"").level = "my-level" ∧
    tracingFnExpand "level = \"my-level\"" = Except.error GenFailure.identPanic :=
  ⟨rfl, rfl, rfl, rfl⟩

/-- The simple-identifier parameters of a signature, in declaration order,
each with the debug rendering of its value: the sub-list lib.rs lines 77-79
iterate over. -/
def loggable : List FnParam → List (String × String)
  | [] => []
  | FnParam.typedIdent n d :: rest => (n, d) :: loggable rest
  | FnParam.other :: rest => loggable rest

/-- C5: the rendered argument list has one fragment per simple-identifier
parameter, in declaration order, `name=***` for skipped names and
`name=<debug>` otherwise; the joined string is `"()"` exactly when there is
no loggable parameter and otherwise the fragments joined with `", "`. -/
theorem claim_C5 (skip_args : List String) (params : List FnParam) :
    argValues skip_args params =
      (loggable params).map (fun nd =>
        if skip_args.contains nd.1 then nd.1 ++ "=***" else nd.1 ++ "=" ++ nd.2) ∧
    joinArgsStr (argValues skip_args params) =
      if loggable params = [] then "()"
      else String.intercalate ", " (argValues skip_args params) := by
  have h : argValues skip_args params =
      (loggable params).map (fun nd =>
        if skip_args.contains nd.1 then nd.1 ++ "=***" else nd.1 ++ "=" ++ nd.2) := by
    induction params with
    | nil => rfl
    | cons p rest ih =>
      cases p with
      | typedIdent n d =>
        cases hc : skip_args.contains n <;> simp [argValues, loggable, ih, hc]
      | other => simpa [argValues, loggable] using ih
  refine ⟨h, ?_⟩
  by_cases hl : loggable params = []
  · simp [h, hl, joinArgsStr]
  · cases hv : argValues skip_args params with
    | nil =>
      rw [h] at hv
      exact absurd (List.map_eq_nil_iff.mp hv) hl
    | cons a t => simp [joinArgsStr, hl, hv]

/-- C9: whatever `force` and the build profile are, a panic of the original
body propagates out of the generated function unchanged and no exit event
is emitted (every emitted event is the entry event); a normal return comes
out unchanged. -/
theorem claim_C9 (α : Type) (f : TracedFn α) (force debugAssertions : Bool)
    (skip_args : List String) (lvl : String) (now : Nat) :
    (∀ p, f.body = Except.error p →
       (runGenerated force debugAssertions skip_args lvl f now).2 = FnOutcome.panicked p ∧
       ∀ e ∈ (runGenerated force debugAssertions skip_args lvl f now).1,
         e.kind = EventKind.entry) ∧
    (∀ v, f.body = Except.ok v →
       (runGenerated force debugAssertions skip_args lvl f now).2 = FnOutcome.ret v) := by
  cases force <;> cases debugAssertions <;>
    refine ⟨fun p hp => ?_, fun v hv => ?_⟩ <;>
      simp [runGenerated, compiledBody, generateBody, cfgKeeps, execBlocks, *]

/-- A concrete panicking call for the C9 witness. -/
def panickyExample : TracedFn Nat where
  fnName := "boom_fn"
  params := [FnParam.typedIdent "x" "1"]
  body := Except.error "boom"
  bodyTicks := 2
  debugRet := fun n => toString n
  durRepr := fun t => toString t ++ "ns"
  srcFile := "examples/example.rs"
  srcLine := 1

/-- Witness for C9 at a concrete panicking call in forced mode under the
instrumented profile. -/
theorem claim_C9_witness :
    (runGenerated true true [] "TRACE" panickyExample 0).2 = FnOutcome.panicked "boom" ∧
    ∀ e ∈ (runGenerated true true [] "TRACE" panickyExample 0).1,
      e.kind = EventKind.entry :=
  (claim_C9 Nat panickyExample true true [] "TRACE" 0).1 "boom" rfl

/-- C8: the level is uppercased; the build of the annotated function
succeeds on the level exactly when the uppercased string is one of the five
severity constants, and every level whose uppercased form is not one fails
the build (as `"verbose"` does) instead of defaulting. -/
theorem claim_C8 :
    (∀ level : String,
       (resolveLevel level = Except.ok (rustToUpper level) ↔
         tracingLevelConsts.contains (rustToUpper level) = true)) ∧
    (∀ level : String, tracingLevelConsts.contains (rustToUpper level) = false →
       ∃ e, resolveLevel level = Except.error e) ∧
    resolveLevel "verbose" = Except.error GenFailure.unresolvedLevel := by
  have hmem : ∀ s : String, s ∈ tracingLevelConsts → rustIdentOk s = true := by
    intro s h
    simp [tracingLevelConsts] at h
    rcases h with h | h | h | h | h <;> subst h <;> decide
  refine ⟨fun level => ?_, fun level h => ?_, rfl⟩
  · by_cases hc : rustToUpper level ∈ tracingLevelConsts
    · simp [resolveLevel, hmem _ hc, hc]
    · cases hid : rustIdentOk (rustToUpper level) <;> simp [resolveLevel, hid, hc]
  · cases hid : rustIdentOk (rustToUpper level) with
    | true =>
      have h' : rustToUpper level ∉ tracingLevelConsts := by simpa using h
      exact ⟨GenFailure.unresolvedLevel, by simp [resolveLevel, hid, h']⟩
    | false => exact ⟨GenFailure.identPanic, by simp [resolveLevel, hid]⟩

/-- Witness for C8 at `level = "verbose"`. -/
theorem claim_C8_witness :
    ∃ e, resolveLevel "verbose" = Except.error e :=
  claim_C8.2.1 "verbose" rfl

/-- The quote-stripped value of a fragment whose trimmed key is `force`,
`none` for every other fragment. -/
def forceVal (frag : String) : Option String :=
  match fragKeyValue frag with
  | some (k, v) => if k = "force" then some v else none
  | none => none

/-- The quote-stripped value of the last `force` fragment of a fragment
list, `none` when there is no such fragment. -/
def lastForceVal : List String → Option String
  | [] => none
  | f :: fs =>
    match lastForceVal fs with
    | some v => some v
    | none => forceVal f

/-- One loop iteration changes `force` exactly when the fragment's key is
`force`, and then to the comparison of its value with `"true"`. -/
theorem applyFragment_force (opts : MacroOpts) (frag : String) :
    (applyFragment opts frag).force =
      match forceVal frag with
      | some v => v == "true"
      | none => opts.force := by
  unfold applyFragment forceVal
  cases h : fragKeyValue frag with
  | none => rfl
  | some kv =>
    obtain ⟨k, v⟩ := kv
    by_cases h1 : k = "level" <;> by_cases h2 : k = "skip" <;>
      by_cases h3 : k = "force" <;> simp [h1, h2, h3]

/-- Over a whole fragment list, `force` is decided by the last `force`
fragment, the initial value surviving when there is none. -/
theorem foldl_applyFragment_force (fs : List String) (opts : MacroOpts) :
    (fs.foldl applyFragment opts).force =
      match lastForceVal fs with
      | some v => v == "true"
      | none => opts.force := by
  induction fs generalizing opts with
  | nil => rfl
  | cons f fs ih =>
    rw [List.foldl_cons, ih]
    cases h : lastForceVal fs with
    | some v => simp [lastForceVal, h]
    | none => simp [lastForceVal, h, applyFragment_force]

/-- C6: parsing sets `force` to `true` exactly when the quote-stripped
value of the last `force` fragment is the string `"true"`; any other value
(or no `force` fragment at all) leaves it `false`, and no input is
rejected. -/
theorem claim_C6 (args : String) :
    (parseMacroArgs args).force = true ↔
      lastForceVal (splitComma args) = some "true" := by
  by_cases ha : args = ""
  · subst ha; decide
  · rw [parseMacroArgs, if_neg ha, foldl_applyFragment_force]
    cases h : lastForceVal (splitComma args) with
    | none => simp [defaultOpts]
    | some v => simp

/-- Every character of a trimmed list is a character of the list. -/
theorem mem_of_mem_trimChars {c : Char} {cs : List Char}
    (h : c ∈ trimChars cs) : c ∈ cs := by
  unfold trimChars at h
  rw [List.mem_reverse] at h
  have h1 : c ∈ (cs.dropWhile rustIsWs).reverse := (List.dropWhile_sublist _).subset h
  rw [List.mem_reverse] at h1
  exact (List.dropWhile_sublist _).subset h1

/-- When `splitFirstEq` succeeds, the list holds an `=`. -/
theorem eq_mem_of_splitFirstEq {cs : List Char} {kv : List Char × List Char}
    (h : splitFirstEq cs = some kv) : '=' ∈ cs := by
  induction cs generalizing kv with
  | nil => simp [splitFirstEq] at h
  | cons c cs ih =>
    by_cases hc : c = '='
    · subst hc; exact List.mem_cons_self _ _
    · rw [splitFirstEq, if_neg hc] at h
      cases hsplit : splitFirstEq cs with
      | none => rw [hsplit] at h; simp at h
      | some kv2 => exact List.mem_cons_of_mem _ (ih hsplit)

/-- A fragment without `=` yields no key/value pair. -/
theorem fragKeyValue_eq_none {frag : String} (h : '=' ∉ frag.data) :
    fragKeyValue frag = none := by
  unfold fragKeyValue
  cases hs : splitFirstEq (rustTrim frag).data with
  | none => rfl
  | some kv =>
    exact absurd (mem_of_mem_trimChars (eq_mem_of_splitFirstEq hs)) h

/-- C7: parsing never fails: the empty input yields the defaults, a
fragment without `=` leaves the options unchanged, and a fragment with an
unrecognized key leaves the options unchanged. -/
theorem claim_C7 :
    parseMacroArgs "" = { level := "trace", skip_args := [], force := false } ∧
    (∀ (opts : MacroOpts) (frag : String), '=' ∉ frag.data →
       applyFragment opts frag = opts) ∧
    (∀ (opts : MacroOpts) (frag k v : String), fragKeyValue frag = some (k, v) →
       k ≠ "level" → k ≠ "skip" → k ≠ "force" → applyFragment opts frag = opts) := by
  refine ⟨rfl, fun opts frag h => ?_, fun opts frag k v hkv h1 h2 h3 => ?_⟩
  · simp [applyFragment, fragKeyValue_eq_none h]
  · simp [applyFragment, hkv, h1, h2, h3]

/-- Witness for C7: the fragment `garbage` (no `=`) and the fragment
`colour = red` (unknown key) leave the default options unchanged. -/
theorem claim_C7_witness :
    applyFragment defaultOpts "garbage" = defaultOpts ∧
    applyFragment defaultOpts "colour = red" = defaultOpts :=
  ⟨claim_C7.2.1 defaultOpts "garbage" (by decide),
   claim_C7.2.2 defaultOpts "colour = red" "colour" "red" (by decide)
     (by decide) (by decide) (by decide)⟩

/-- `dropWhile` splits a list into a satisfying front part and the rest. -/
theorem dropWhile_decomp (p : Char → Bool) (l : List Char) :
    ∃ pre : List Char, (∀ c ∈ pre, p c = true) ∧ l = pre ++ l.dropWhile p := by
  induction l with
  | nil => exact ⟨[], by simp, rfl⟩
  | cons c cs ih =>
    by_cases hc : p c = true
    · obtain ⟨pre, hpre, heq⟩ := ih
      refine ⟨c :: pre, ?_, ?_⟩
      · intro d hd
        rcases List.mem_cons.mp hd with h | h
        · subst h; exact hc
        · exact hpre d h
      · rw [List.dropWhile_cons, if_pos hc, List.cons_append]
        exact congrArg (c :: ·) heq
    · refine ⟨[], by simp, ?_⟩
      rw [List.dropWhile_cons, if_neg hc, List.nil_append]

/-- The head of `dropWhile p` never satisfies `p`. -/
theorem head_dropWhile_false (p : Char → Bool) :
    ∀ (l : List Char) (c : Char), (l.dropWhile p).head? = some c → p c = false := by
  intro l
  induction l with
  | nil => intro c h; simp [List.dropWhile] at h
  | cons a cs ih =>
    intro c h
    by_cases ha : p a = true
    · rw [List.dropWhile_cons, if_pos ha] at h
      exact ih c h
    · rw [List.dropWhile_cons, if_neg ha] at h
      simp at h
      subst h
      exact Bool.not_eq_true _ |>.mp ha

/-- `v` is `raw` with every leading and every trailing quote character
removed: a quote-only front part and a quote-only back part are cut off,
and what stays neither starts nor ends with a quote character. -/
def QuoteStrippedFrom (raw v : String) : Prop :=
  ∃ pre post : List Char,
    (∀ c ∈ pre, isQuoteChar c = true) ∧ (∀ c ∈ post, isQuoteChar c = true) ∧
    raw.data = pre ++ v.data ++ post ∧
    (∀ c, v.data.head? = some c → isQuoteChar c = false) ∧
    (∀ c, v.data.getLast? = some c → isQuoteChar c = false)

/-- The embedded `trim_matches` strips all leading and trailing quote
characters, matched or not. -/
theorem trimMatchesQuote_spec (raw : String) :
    QuoteStrippedFrom raw (trimMatchesQuote raw) := by
  obtain ⟨pre, hpre, heq⟩ := dropWhile_decomp isQuoteChar raw.data
  obtain ⟨pre2, hpre2, heq2⟩ :=
    dropWhile_decomp isQuoteChar (raw.data.dropWhile isQuoteChar).reverse
  have hl1 : raw.data.dropWhile isQuoteChar =
      (trimMatchesQuote raw).data ++ pre2.reverse := by
    have h := congrArg List.reverse heq2
    rw [List.reverse_reverse, List.reverse_append] at h
    exact h
  refine ⟨pre, pre2.reverse, hpre, ?_, ?_, ?_, ?_⟩
  · intro c hc
    exact hpre2 c (List.mem_reverse.mp hc)
  · rw [heq, hl1, List.append_assoc]
  · intro c hc
    apply head_dropWhile_false isQuoteChar raw.data c
    rw [hl1]
    cases hvd : (trimMatchesQuote raw).data with
    | nil => rw [hvd] at hc; simp at hc
    | cons a t =>
      rw [hvd] at hc
      simp at hc
      subst hc
      simp [hvd]
  · intro c hc
    have hc2 : ((raw.data.dropWhile isQuoteChar).reverse.dropWhile
        isQuoteChar).reverse.getLast? = some c := hc
    rw [List.getLast?_reverse] at hc2
    exact head_dropWhile_false isQuoteChar (raw.data.dropWhile isQuoteChar).reverse c hc2

/-- The stripping rule exactly as claim C4 words it: exactly one matching
pair of leading/trailing quote characters is removed; an unmatched quote,
or quotes beyond one matching pair, stay. -/
def stripOneMatchingPair (s : String) : String :=
  match s.data with
  | [] => s
  | c :: cs =>
    if isQuoteChar c && !cs.isEmpty && (cs.getLast? == some c) then ⟨cs.dropLast⟩
    else s

/-- C4 as stated fails on the code: on the fragment `level = "info` (one
unmatched leading quote) the code strips the quote away, where the claim
says an unmatched quote is not stripped. -/
theorem claim_C4_counterexample :
    fragKeyValue "level = \"info" = some ("level", "info") ∧
    stripOneMatchingPair "\"info" = "\"info" ∧
    ("info" : String) ≠ "\"info" :=
  ⟨rfl, rfl, by decide⟩

/-- C4 amended: for every fragment holding an `=`, the parsed value is the
text after the first `=`, trimmed, then stripped of all leading and all
trailing quote characters, matched or not (not of a single matching
pair). -/
theorem claim_C4 (frag : String) (k rawV : List Char)
    (h : splitFirstEq (rustTrim frag).data = some (k, rawV)) :
    fragKeyValue frag = some (⟨trimChars k⟩, trimMatchesQuote ⟨trimChars rawV⟩) ∧
    QuoteStrippedFrom ⟨trimChars rawV⟩ (trimMatchesQuote ⟨trimChars rawV⟩) := by
  refine ⟨?_, trimMatchesQuote_spec _⟩
  unfold fragKeyValue
  rw [h]

/-- Witness for C4 at the fragment `level = "x"`. -/
theorem claim_C4_witness :
    fragKeyValue "level = \"x\"" =
      some (⟨trimChars "level ".data⟩, trimMatchesQuote ⟨trimChars " \"x\"".data⟩) ∧
    QuoteStrippedFrom ⟨trimChars " \"x\"".data⟩
      (trimMatchesQuote ⟨trimChars " \"x\"".data⟩) :=
  claim_C4 "level = \"x\"" "level ".data " \"x\"".data (by decide)
